import Mathlib

/-!
Formal model of `etf_overlap/helper.py` (classes `EquityHelpers` and
`ETFHelpers`).

Modelling conventions:
* pandas DataFrames are lists of row structures; a nullable column cell is an
  `Option` value (pandas `NaN`/`None` becomes `none`).
* Python floats are modelled as exact rationals (`ℚ`).
* Python exceptions are modelled by the error side of `Except PyErr`;
  `assert` failure is `PyErr.assertionError`, subscripting `None` is
  `PyErr.typeError`.
* The instance `self` of `ETFHelpers` is an explicit state value threaded
  through every method; a method that mutates `self` returns the new state, a
  method that only reads `self` returns its result together with the
  (unchanged) state it finished with.
* The two external data providers (`openbb.etf.holdings` and
  `fd.select_equities`) are parameters of the operations that call them.
-/

/-! ### Rounding: Python's `round(x, 2)`

Python `round` rounds half to even.  On rationals this is exact; binary
floating point noise is outside the model. -/

/-- Floor of a rational, computed from its normalised fraction (the
denominator is always positive, so flooring integer division is correct). -/
def ratFloorZ (q : ℚ) : ℤ := Int.fdiv q.num q.den

/-- Round a rational to the nearest integer, ties to even (Python `round`). -/
def roundHalfEven (q : ℚ) : ℤ :=
  let f : ℤ := ratFloorZ q
  let frac : ℚ := q - (f : ℚ)
  if frac < 1 / 2 then f
  else if 1 / 2 < frac then f + 1
  else if f % 2 = 0 then f else f + 1

/-- Python `round(q, 2)`. -/
def round2 (q : ℚ) : ℚ := (roundHalfEven (q * 100) : ℚ) / 100

/-! ### Python exceptions -/

/-- The exception kinds the model distinguishes.  `otherError` stands for any
exception class other than the ones named. -/
inductive PyErr where
  | valueError (msg : String)
  | assertionError (msg : String)
  | typeError (msg : String)
  | otherError (msg : String)
deriving DecidableEq

/-! ### Row types -/

/-- One row of the raw holdings table returned by `openbb.etf.holdings`,
after `reset_index()` and the column renaming done by `clean_holdings`
(line 127-128): columns `symbol`, `name`, `percent` (still a string such as
`"7.50%"`), `shares`. -/
structure RawRow where
  symbol : String
  name : String
  percent : String
  shares : ℚ

/-- One row of a normalised holdings table: `percent` is now a fraction. -/
structure HoldingRow where
  symbol : String
  name : String
  percent : ℚ
  shares : ℚ

/-! ### `clean_holdings` (helper.py lines 124-130)

`df['percent'].str.rstrip('%').astype(float) / 100`.  Python's `float`
parser is modelled for plain decimal literals (optional sign, digits, one
optional decimal point), which is the shape the percent strings take; any
other string makes `float` raise `ValueError`, modelled by `none`. -/

/-- Parse a digit run as a natural number; `none` if some character is not a
digit. -/
def digitsVal? (l : List Char) : Option ℕ :=
  l.foldlM (fun acc c => if c.isDigit then some (10 * acc + (c.toNat - 48)) else none) 0

/-- Parse an unsigned decimal literal into (integer part, fraction digits
value, number of fraction digits). -/
def parseUnsignedParts? (l : List Char) : Option (ℕ × ℕ × ℕ) :=
  match l.span (fun c => !decide (c = '.')) with
  | (ip, []) => if ip.isEmpty then none else (digitsVal? ip).map (fun i => (i, 0, 0))
  | (ip, _ :: fp) =>
    if ip.isEmpty && fp.isEmpty then none
    else
      match (if ip.isEmpty then some 0 else digitsVal? ip),
            (if fp.isEmpty then some 0 else digitsVal? fp) with
      | some i, some f => some (i, f, fp.length)
      | _, _ => none

/-- Parse an optionally signed decimal literal into
(negative?, integer part, fraction digits value, fraction length). -/
def parseFloatParts? (s : String) : Option (Bool × ℕ × ℕ × ℕ) :=
  match s.data with
  | '-' :: rest => (parseUnsignedParts? rest).map (fun p => (true, p))
  | '+' :: rest => (parseUnsignedParts? rest).map (fun p => (false, p))
  | l => (parseUnsignedParts? l).map (fun p => (false, p))

/-- The rational value of a parsed decimal literal. -/
def ratOfParts (p : Bool × ℕ × ℕ × ℕ) : ℚ :=
  (if p.1 then -1 else 1) * ((p.2.1 : ℚ) + (p.2.2.1 : ℚ) / 10 ^ p.2.2.2)

/-- Python `float(s)` on a plain decimal literal. -/
def parseFloat? (s : String) : Option ℚ := (parseFloatParts? s).map ratOfParts

/-- Pandas `.str.rstrip('%')`: drop every trailing `'%'` character. -/
def rstripPercent (s : String) : String :=
  ⟨(s.data.reverse.dropWhile fun c => decide (c = '%')).reverse⟩

/-- Convert one raw row: strip trailing `'%'`, parse as float, divide by 100
(`ValueError` when the remainder does not parse, as `astype(float)` raises). -/
def clean_row (r : RawRow) : Except PyErr HoldingRow :=
  match parseFloat? (rstripPercent r.percent) with
  | some q => .ok ⟨r.symbol, r.name, q / 100, r.shares⟩
  | none => .error (.valueError "could not convert string to float")

/-- `ETFHelpers.clean_holdings`: normalise every row of the raw table. -/
def clean_holdings : List RawRow → Except PyErr (List HoldingRow)
  | [] => .ok []
  | r :: t =>
    match clean_row r, clean_holdings t with
    | .ok hr, .ok rest => .ok (hr :: rest)
    | .error e, _ => .error e
    | .ok _, .error e => .error e

/-! ### `EquityHelpers` (helper.py lines 6-43) -/

/-- The metadata one entry of `fd.select_equities()` carries (further fields
of the provider's records are ignored by the code). -/
structure EquityRec where
  sector : Option String
  industry : Option String
  country : Option String

/-- One row of the reference table built by `get_equity_data`. -/
structure EquityRow where
  symbol : String
  sector : Option String
  industry : Option String
  country : Option String

/-- One row of the overlap table after column selection and renaming in
`get_holdings_overlap` (lines 111-112): columns `symbol`, `name`, `percent`,
`shares`. -/
structure OverlapRow where
  symbol : String
  name : String
  percent : Option ℚ
  shares : Option ℚ

/-- One row of the enriched overlap table returned by
`merge_with_holdings`. -/
structure EnrichedRow where
  symbol : String
  name : String
  percent : Option ℚ
  shares : Option ℚ
  sector : Option String
  industry : Option String
  country : Option String

/-- `EquityHelpers.get_equity_data` (lines 9-30): flatten the provider's
mapping, skipping the empty symbol.  The provider's mapping is the explicit
argument `eqJson`, a key/value list in iteration order. -/
def get_equity_data (eqJson : List (String × EquityRec)) : List EquityRow :=
  (eqJson.filter fun p => !decide (p.1 = "")).map
    fun p => ⟨p.1, p.2.sector, p.2.industry, p.2.country⟩

/-- `EquityHelpers.merge_with_holdings` (lines 32-43):
`holdings_df.merge(equity_df, how='left', on='symbol')`.  A pandas left
join keeps every left row in order; a left row with matches yields one
output row per matching right row, a left row without matches is kept once
with null right-hand columns. -/
def merge_with_holdings (eqJson : List (String × EquityRec))
    (holdings_df : List OverlapRow) : List EnrichedRow :=
  let equity_df := get_equity_data eqJson
  holdings_df.flatMap fun h =>
    let ms := equity_df.filter fun e => decide (e.symbol = h.symbol)
    if ms.isEmpty then [⟨h.symbol, h.name, h.percent, h.shares, none, none, none⟩]
    else ms.map fun e => ⟨h.symbol, h.name, h.percent, h.shares, e.sector, e.industry, e.country⟩

/-! ### The outer join of `set_merged_etfs` (helper.py lines 63-69)

`df_1.merge(df_2, how='outer', on=['symbol', 'name'],
suffixes=(.., ..), indicator=True)`.

The merged row type keeps the two suffixed column pairs positionally:
`percent_1`/`shares_1` stand for `percent_<etf_1>`/`shares_<etf_1>` and
`percent_2`/`shares_2` for `percent_<etf_2>`/`shares_<etf_2>` (the suffixes
distinguish the columns exactly when the two identifiers differ).  `tag`
is the `_merge` indicator column.  The model lists matched left rows (each
paired with all its right matches) followed by the unmatched right rows;
pandas orders an outer join by sorted key instead, and no verified claim
depends on the row order of the merged table. -/

/-- Values of the `_merge` indicator column. -/
inductive MergeTag where
  | left_only
  | right_only
  | both
deriving DecidableEq

/-- One row of `self.merged_etfs`. -/
structure MergedRow where
  symbol : String
  name : String
  percent_1 : Option ℚ
  shares_1 : Option ℚ
  percent_2 : Option ℚ
  shares_2 : Option ℚ
  tag : MergeTag

/-- Join-key equality on `['symbol', 'name']`. -/
def sameKey (a b : HoldingRow) : Bool :=
  decide (a.symbol = b.symbol) && decide (a.name = b.name)

/-- The right-side rows matching a given left row. -/
def matchRows (df2 : List HoldingRow) (a : HoldingRow) : List HoldingRow :=
  df2.filter (sameKey a)

/-- Merged rows contributed by one left row: its pairings with every match,
or a single left-only row when nothing matches. -/
def leftRowMerge (df2 : List HoldingRow) (a : HoldingRow) : List MergedRow :=
  if (matchRows df2 a).isEmpty then
    [⟨a.symbol, a.name, some a.percent, some a.shares, none, none, MergeTag.left_only⟩]
  else (matchRows df2 a).map
    fun b => ⟨a.symbol, a.name, some a.percent, some a.shares, some b.percent, some b.shares,
              MergeTag.both⟩

/-- Merged rows contributed by unmatched right rows. -/
def rightOnlyRows (df1 df2 : List HoldingRow) : List MergedRow :=
  (df2.filter fun b => !(df1.any fun a => sameKey a b)).map
    fun b => ⟨b.symbol, b.name, none, none, some b.percent, some b.shares, MergeTag.right_only⟩

/-- The full outer join on `['symbol', 'name']` with indicator column. -/
def outerMerge (df1 df2 : List HoldingRow) : List MergedRow :=
  df1.flatMap (leftRowMerge df2) ++ rightOnlyRows df1 df2

/-! ### `ETFHelpers` state and methods (helper.py lines 45-122) -/

/-- The instance state set up by `ETFHelpers.__init__` (lines 48-52). -/
structure ETFHelpers where
  etf_1 : String
  etf_2 : String
  merged_etfs : Option (List MergedRow)
  greater : Option String
  lesser : Option String

/-- The message of the `ValueError` re-raised by `set_merged_etfs`
(lines 74-78): the exact contents of the triple-quoted string, newlines
and indentation included. -/
def etfNotFoundMsg : String :=
  "\n                ETF data not found for at least one symbol.\n                Maybe you misspelled a symbol?\n                "

/-- The message of the `assert` guarding every getter (lines 98, 107, 120). -/
def assertMsg : String := "ETF not in initialized pair"

/-- Message of the `TypeError` Python raises when a method subscripts
`self.merged_etfs` while it is still `None`. -/
def noneSubscriptMsg : String := "NoneType object is not subscriptable"

/-- `ETFHelpers.set_merged_etfs` (lines 54-78).  `fetch` stands for
`openbb.etf.holdings`.  The `try` block fetches both holdings tables,
normalises them and stores their outer join; a `ValueError` escaping the
block is replaced by one with the fixed message, every other exception
propagates unchanged. -/
def set_merged_etfs (fetch : String → Except PyErr (List RawRow))
    (s : ETFHelpers) : Except PyErr ETFHelpers :=
  let body : Except PyErr ETFHelpers :=
    match fetch s.etf_1 with
    | .error e => .error e
    | .ok raw1 =>
      match fetch s.etf_2 with
      | .error e => .error e
      | .ok raw2 =>
        match clean_holdings raw1 with
        | .error e => .error e
        | .ok df1 =>
          match clean_holdings raw2 with
          | .error e => .error e
          | .ok df2 => .ok { s with merged_etfs := some (outerMerge df1 df2) }
  match body with
  | .error (PyErr.valueError _) => .error (PyErr.valueError etfNotFoundMsg)
  | r => r

/-- Pandas `Series.sum()` over a nullable column: null cells are skipped
(`skipna=True`), i.e. contribute zero. -/
def sumOpt (l : List (Option ℚ)) : ℚ := (l.map fun o => o.getD 0).sum

/-- `ETFHelpers.set_etf_size` (lines 80-92): compare the total share counts
and label the two ETFs.  Both labels come from the same pair of strict
comparisons the source uses, so on exact equality both fall to their
`else` branch, `self.etf_2`. -/
def set_etf_size (s : ETFHelpers) : Except PyErr ETFHelpers :=
  match s.merged_etfs with
  | none => .error (.typeError noneSubscriptMsg)
  | some m =>
    let etf_1_total := sumOpt (m.map MergedRow.shares_1)
    let etf_2_total := sumOpt (m.map MergedRow.shares_2)
    .ok { s with
      greater := some (if etf_2_total < etf_1_total then s.etf_1 else s.etf_2),
      lesser := some (if etf_1_total < etf_2_total then s.etf_1 else s.etf_2) }

/-- Column lookup `row[f'percent_{etf}']` on a merged row.  Faithful to the
suffixed pandas columns when `etf` is one of the pair and the two
identifiers differ. -/
def percentCol (s : ETFHelpers) (etf : String) (r : MergedRow) : Option ℚ :=
  if etf = s.etf_1 then r.percent_1 else r.percent_2

/-- Column lookup `row[f'shares_{etf}']` on a merged row. -/
def sharesCol (s : ETFHelpers) (etf : String) (r : MergedRow) : Option ℚ :=
  if etf = s.etf_1 then r.shares_1 else r.shares_2

/-- `ETFHelpers.get_percent_overlap` (lines 94-101): assert the argument,
filter the merged table to `_merge == 'both'`, sum the `percent_<etf>`
column and round to 2 decimals.  The getter returns the value paired with
the instance state it leaves behind. -/
def get_percent_overlap (s : ETFHelpers) (etf : String) :
    Except PyErr (ℚ × ETFHelpers) :=
  if etf = s.etf_1 ∨ etf = s.etf_2 then
    match s.merged_etfs with
    | none => .error (.typeError noneSubscriptMsg)
    | some m =>
      let overlap := m.filter fun r => decide (r.tag = MergeTag.both)
      .ok (round2 (sumOpt (overlap.map (percentCol s etf))), s)
  else .error (.assertionError assertMsg)

/-- Comparison used to model `sort_values(col, ascending=False)` on the
`percent_<etf>` column: larger values first, null values last
(`na_position='last'`).  The model realises the sort with a stable merge
sort; pandas' default `kind='quicksort'` produces the same multiset in the
same key order but leaves the relative order of tied rows unspecified. -/
def descKeyLE (a b : Option ℚ) : Bool :=
  match a, b with
  | none, none => true
  | none, some _ => false
  | some _, none => true
  | some x, some y => decide (y ≤ x)

/-- `ETFHelpers.get_holdings_overlap` (lines 103-114): assert, filter to
`_merge == 'both'`, sort by `percent_<etf>` descending, select and rename
the four columns, then left-join with the equity reference table. -/
def get_holdings_overlap (eqJson : List (String × EquityRec))
    (s : ETFHelpers) (etf : String) :
    Except PyErr (List EnrichedRow × ETFHelpers) :=
  if etf = s.etf_1 ∨ etf = s.etf_2 then
    match s.merged_etfs with
    | none => .error (.typeError noneSubscriptMsg)
    | some m =>
      let overlap := m.filter fun r => decide (r.tag = MergeTag.both)
      let sortedRows := overlap.mergeSort
        fun a b => descKeyLE (percentCol s etf a) (percentCol s etf b)
      let selected := sortedRows.map
        fun r => OverlapRow.mk r.symbol r.name (percentCol s etf r) (sharesCol s etf r)
      .ok (merge_with_holdings eqJson selected, s)
  else .error (.assertionError assertMsg)

/-- `ETFHelpers.get_top_overlapping_holdings` (lines 116-122): assert, then
`get_holdings_overlap(etf).head(n)`.  `head n` on a non-negative count is
`List.take n`. -/
def get_top_overlapping_holdings (eqJson : List (String × EquityRec))
    (s : ETFHelpers) (etf : String) (n : ℕ) :
    Except PyErr (List EnrichedRow × ETFHelpers) :=
  if etf = s.etf_1 ∨ etf = s.etf_2 then
    match get_holdings_overlap eqJson s etf with
    | .ok (overlap, s2) => .ok (overlap.take n, s2)
    | .error e => .error e
  else .error (.assertionError assertMsg)

/-- A `(symbol, name)` key is present in a holdings table. -/
def keyIn (df : List HoldingRow) (sym nm : String) : Prop :=
  ∃ h ∈ df, h.symbol = sym ∧ h.name = nm

/-! ### Concrete fixtures

`dfX`/`dfY` are the end-to-end scenario of the spec (section 8):
ETF_X holds (AAA, 0.6, 100), (BBB, 0.4, 50); ETF_Y holds (AAA, 0.5, 80),
(CCC, 0.5, 80). -/

def dfX : List HoldingRow := [⟨"AAA", "N1", 0.6, 100⟩, ⟨"BBB", "N2", 0.4, 50⟩]

def dfY : List HoldingRow := [⟨"AAA", "N1", 0.5, 80⟩, ⟨"CCC", "N3", 0.5, 80⟩]

/-- An `ETFHelpers` instance for the pair (ETFX, ETFY) after
`set_merged_etfs` has stored the outer join of `dfX` and `dfY`. -/
def sXY : ETFHelpers := ⟨"ETFX", "ETFY", some (outerMerge dfX dfY), none, none⟩

/-- A merged table whose two total share sums are exactly equal. -/
def mTie : List MergedRow := [⟨"SSS", "N4", some 0.5, some 2, some 0.5, some 2, MergeTag.both⟩]

/-- An instance holding the tied merged table. -/
def sTie : ETFHelpers := ⟨"ETFA", "ETFB", some mTie, none, none⟩

/-- A holdings provider that rejects the symbol ETFA with a `ValueError` and
returns an empty table for everything else. -/
def fetchNF : String → Except PyErr (List RawRow) :=
  fun x => if x = "ETFA" then Except.error (PyErr.valueError "No ETF found") else Except.ok []

/-- A freshly initialised instance for the pair (ETFA, ETFB). -/
def sNF : ETFHelpers := ⟨"ETFA", "ETFB", none, none, none⟩

/-! ### Helper lemmas -/

theorem roundHalfEven_intCast (n : ℤ) : roundHalfEven ((n : ℤ) : ℚ) = n := by
  unfold roundHalfEven ratFloorZ
  rw [Rat.num_intCast, Rat.den_intCast]
  norm_num [Int.fdiv_one]

theorem round2_eq_of_mul_eq (q : ℚ) (n : ℤ) (h : q * 100 = (n : ℚ)) :
    round2 q = (n : ℚ) / 100 := by
  rw [round2, h, roundHalfEven_intCast]

theorem sumOpt_nil : sumOpt [] = 0 := rfl

theorem sumOpt_cons (o : Option ℚ) (l : List (Option ℚ)) :
    sumOpt (o :: l) = o.getD 0 + sumOpt l := by
  simp [sumOpt]

theorem sumOpt_filter_both (s : ETFHelpers) (etf : String) (l : List MergedRow) :
    sumOpt ((l.filter fun r => decide (r.tag = MergeTag.both)).map (percentCol s etf))
      = l.foldr
          (fun r acc => if r.tag = MergeTag.both then (percentCol s etf r).getD 0 + acc else acc)
          0 := by
  induction l with
  | nil => simp [sumOpt]
  | cons r t ih =>
    by_cases h : r.tag = MergeTag.both
    · have hp : decide (r.tag = MergeTag.both) = true := by simp [h]
      rw [List.filter_cons, if_pos hp, List.map_cons, sumOpt_cons, ih, List.foldr_cons, if_pos h]
    · have hp : ¬ decide (r.tag = MergeTag.both) = true := by simp [h]
      rw [List.filter_cons, if_neg hp, List.foldr_cons, if_neg h, ih]

/-- Claim C1: `get_percent_overlap` returns the `percent_<etf>` sum over the
rows tagged `'both'`, rounded to 2 decimal places, for every merged table
and every `etf` of the configured (distinct) pair. -/
theorem get_percent_overlap_sum_both (s : ETFHelpers) (etf : String)
    (m : List MergedRow) (hpair : etf = s.etf_1 ∨ etf = s.etf_2)
    (_hdistinct : s.etf_1 ≠ s.etf_2) (hm : s.merged_etfs = some m) :
    get_percent_overlap s etf =
      Except.ok
        (round2 (m.foldr
          (fun r acc => if r.tag = MergeTag.both then (percentCol s etf r).getD 0 + acc else acc)
          0),
         s) := by
  unfold get_percent_overlap
  rw [if_pos hpair, hm]
  rw [show (match some m with
      | none => Except.error (PyErr.typeError noneSubscriptMsg)
      | some m =>
        Except.ok (round2 (sumOpt ((m.filter fun r => decide (r.tag = MergeTag.both)).map
          (percentCol s etf))), s)) =
      Except.ok (round2 (sumOpt ((m.filter fun r => decide (r.tag = MergeTag.both)).map
        (percentCol s etf))), s) from rfl]
  rw [sumOpt_filter_both]

/-- Witness for C1 on the spec's end-to-end fixture: the ETFX overlap
percentage of `sXY` is `round(0.6, 2) = 0.6`. -/
theorem get_percent_overlap_sum_both_witness :
    ("ETFX" = sXY.etf_1 ∨ "ETFX" = sXY.etf_2) ∧ sXY.etf_1 ≠ sXY.etf_2 ∧
    sXY.merged_etfs = some (outerMerge dfX dfY) ∧
    get_percent_overlap sXY "ETFX" = Except.ok ((0.6 : ℚ), sXY) := by
  refine ⟨Or.inl rfl, by decide, rfl, ?_⟩
  have h := get_percent_overlap_sum_both sXY "ETFX" (outerMerge dfX dfY)
    (Or.inl rfl) (by decide) rfl
  rw [h]
  show Except.ok (round2 ((0.6 : ℚ) + 0), sXY) = Except.ok ((0.6 : ℚ), sXY)
  rw [show (0.6 : ℚ) + 0 = 0.6 from by norm_num,
    round2_eq_of_mul_eq (0.6 : ℚ) 60 (by norm_num)]
  norm_num

theorem sameKey_iff (a b : HoldingRow) :
    sameKey a b = true ↔ a.symbol = b.symbol ∧ a.name = b.name := by
  simp [sameKey]

/-- Claim C2: every row of the outer join carries a `(symbol, name)` key
present in at least one input, and its `_merge` tag is `'both'`, `'left_only'`
or `'right_only'` exactly as the key occurs in both tables, only the left
one, or only the right one. -/
theorem outerMerge_membership_tags (df1 df2 : List HoldingRow) (r : MergedRow)
    (hr : r ∈ outerMerge df1 df2) :
    (keyIn df1 r.symbol r.name ∨ keyIn df2 r.symbol r.name) ∧
    (r.tag = MergeTag.both ↔ keyIn df1 r.symbol r.name ∧ keyIn df2 r.symbol r.name) ∧
    (r.tag = MergeTag.left_only ↔ keyIn df1 r.symbol r.name ∧ ¬ keyIn df2 r.symbol r.name) ∧
    (r.tag = MergeTag.right_only ↔ ¬ keyIn df1 r.symbol r.name ∧ keyIn df2 r.symbol r.name) := by
  rcases List.mem_append.mp hr with hL | hR
  · rcases List.mem_flatMap.mp hL with ⟨a, ha, hfa⟩
    unfold leftRowMerge at hfa
    by_cases hms : (matchRows df2 a).isEmpty
    · rw [if_pos hms] at hfa
      have hrEq : r = ⟨a.symbol, a.name, some a.percent, some a.shares, none, none,
          MergeTag.left_only⟩ := List.mem_singleton.mp hfa
      have hnot : ¬ keyIn df2 a.symbol a.name := by
        rw [List.isEmpty_iff] at hms
        rintro ⟨b, hb, hbs, hbn⟩
        have hk : sameKey a b = true := (sameKey_iff a b).mpr ⟨hbs.symm, hbn.symm⟩
        have : b ∈ matchRows df2 a := List.mem_filter.mpr ⟨hb, hk⟩
        rw [hms] at this
        exact (List.not_mem_nil b) this
      have hin1 : keyIn df1 a.symbol a.name := ⟨a, ha, rfl, rfl⟩
      subst hrEq
      refine ⟨Or.inl hin1, ?_, ?_, ?_⟩ <;> simp [hin1, hnot]
    · rw [if_neg hms] at hfa
      rcases List.mem_map.mp hfa with ⟨b, hbms, hrEq⟩
      have hbf := List.mem_filter.mp hbms
      have hkey := (sameKey_iff a b).mp hbf.2
      have hin1 : keyIn df1 a.symbol a.name := ⟨a, ha, rfl, rfl⟩
      have hin2 : keyIn df2 a.symbol a.name := ⟨b, hbf.1, hkey.1.symm, hkey.2.symm⟩
      subst hrEq
      refine ⟨Or.inl hin1, ?_, ?_, ?_⟩ <;> simp [hin1, hin2]
  · unfold rightOnlyRows at hR
    rcases List.mem_map.mp hR with ⟨b, hbf, hrEq⟩
    have hb2 := List.mem_filter.mp hbf
    have hany : (df1.any fun a => sameKey a b) = false := by
      simpa using hb2.2
    have hnot1 : ¬ keyIn df1 b.symbol b.name := by
      rintro ⟨a, ha1, has, han⟩
      have hk : (df1.any fun a => sameKey a b) = true :=
        List.any_eq_true.mpr ⟨a, ha1, (sameKey_iff a b).mpr ⟨has, han⟩⟩
      rw [hany] at hk
      exact Bool.false_ne_true hk
    have hin2 : keyIn df2 b.symbol b.name := ⟨b, hb2.1, rfl, rfl⟩
    subst hrEq
    refine ⟨Or.inr hin2, ?_, ?_, ?_⟩ <;> simp [hin2, hnot1]

/-- Witness for C2: in the merged spec fixture, the AAA row is tagged
`'both'` and its key is indeed in both holdings tables. -/
theorem outerMerge_membership_tags_witness :
    (⟨"AAA", "N1", some 0.6, some 100, some 0.5, some 80, MergeTag.both⟩ : MergedRow)
        ∈ outerMerge dfX dfY ∧
    keyIn dfX "AAA" "N1" ∧ keyIn dfY "AAA" "N1" := by
  have hmem : (⟨"AAA", "N1", some 0.6, some 100, some 0.5, some 80, MergeTag.both⟩ : MergedRow)
      ∈ outerMerge dfX dfY := List.mem_cons_self _ _
  exact ⟨hmem, (outerMerge_membership_tags dfX dfY _ hmem).2.1.mp rfl⟩

/-- Counterexample to C3 as stated: on a merged table whose two total share
sums are exactly equal, `set_etf_size` assigns `etf_2` to BOTH labels
(both ternaries take their `else` branch), so `lesser` is `etf_B`, not
`etf_A` as the claim requires. -/
theorem set_etf_size_tie_counterexample :
    sumOpt (mTie.map MergedRow.shares_1) = sumOpt (mTie.map MergedRow.shares_2) ∧
    sTie.etf_1 = "ETFA" ∧ sTie.etf_2 = "ETFB" ∧
    set_etf_size sTie = Except.ok { sTie with greater := some "ETFB", lesser := some "ETFB" } ∧
    ¬ (∃ s2, set_etf_size sTie = Except.ok s2 ∧ s2.lesser = some sTie.etf_1) := by
  have hset : set_etf_size sTie =
      Except.ok { sTie with greater := some "ETFB", lesser := some "ETFB" } := by
    simp [set_etf_size, sTie, mTie, sumOpt]
  refine ⟨by simp [mTie, sumOpt], rfl, rfl, hset, ?_⟩
  rintro ⟨s2, hok, hl⟩
  have hs2 := Except.ok.inj (hset.symm.trans hok)
  rw [← hs2] at hl
  exact (by decide : ("ETFB" : String) ≠ "ETFA") (Option.some.inj hl)

/-- Claim C3 (amended): `greater` is the identifier with the strictly larger
total share sum and `lesser` the one with the strictly smaller sum; when the
two sums are exactly equal, BOTH `greater` and `lesser` are set to `etf_2`
(etf_B). -/
theorem set_etf_size_classification (s : ETFHelpers) (m : List MergedRow)
    (_hdistinct : s.etf_1 ≠ s.etf_2) (hm : s.merged_etfs = some m) :
    ∃ s2, set_etf_size s = Except.ok s2 ∧
      (sumOpt (m.map MergedRow.shares_2) < sumOpt (m.map MergedRow.shares_1) →
        s2.greater = some s.etf_1 ∧ s2.lesser = some s.etf_2) ∧
      (sumOpt (m.map MergedRow.shares_1) < sumOpt (m.map MergedRow.shares_2) →
        s2.greater = some s.etf_2 ∧ s2.lesser = some s.etf_1) ∧
      (sumOpt (m.map MergedRow.shares_1) = sumOpt (m.map MergedRow.shares_2) →
        s2.greater = some s.etf_2 ∧ s2.lesser = some s.etf_2) := by
  have hbase : set_etf_size s = Except.ok { s with
      greater := some (if sumOpt (m.map MergedRow.shares_2) < sumOpt (m.map MergedRow.shares_1)
        then s.etf_1 else s.etf_2),
      lesser := some (if sumOpt (m.map MergedRow.shares_1) < sumOpt (m.map MergedRow.shares_2)
        then s.etf_1 else s.etf_2) } := by
    unfold set_etf_size
    rw [hm]
  refine ⟨_, hbase, fun h => ?_, fun h => ?_, fun h => ?_⟩
  · constructor
    · show some (if _ then _ else _) = _
      rw [if_pos h]
    · show some (if _ then _ else _) = _
      rw [if_neg (lt_asymm h)]
  · constructor
    · show some (if _ then _ else _) = _
      rw [if_neg (lt_asymm h)]
    · show some (if _ then _ else _) = _
      rw [if_pos h]
  · constructor
    · show some (if _ then _ else _) = _
      rw [if_neg (by rw [h]; exact lt_irrefl _)]
    · show some (if _ then _ else _) = _
      rw [if_neg (by rw [h]; exact lt_irrefl _)]

/-- Witness for the amended C3 on the spec fixture: total shares are 150 for
ETFX and 160 for ETFY, so greater is ETFY and lesser is ETFX. -/
theorem set_etf_size_classification_witness :
    sXY.etf_1 ≠ sXY.etf_2 ∧ sXY.merged_etfs = some (outerMerge dfX dfY) ∧
    ∃ s2, set_etf_size sXY = Except.ok s2 ∧
      s2.greater = some "ETFY" ∧ s2.lesser = some "ETFX" := by
  refine ⟨by decide, rfl, ?_⟩
  obtain ⟨s2, hok, _, h12, _⟩ :=
    set_etf_size_classification sXY (outerMerge dfX dfY) (by decide) rfl
  have hmap1 : (outerMerge dfX dfY).map MergedRow.shares_1 =
      [some 100, some 50, none] := rfl
  have hmap2 : (outerMerge dfX dfY).map MergedRow.shares_2 =
      [some 80, none, some 80] := rfl
  have hlt : sumOpt ((outerMerge dfX dfY).map MergedRow.shares_1)
      < sumOpt ((outerMerge dfX dfY).map MergedRow.shares_2) := by
    rw [hmap1, hmap2]
    simp [sumOpt]
    norm_num
  exact ⟨s2, hok, (h12 hlt).1, (h12 hlt).2⟩

/-- Claim C4: a `ValueError` from either holdings fetch makes
`set_merged_etfs` raise a single `ValueError` carrying the fixed message
`etfNotFoundMsg`, while an exception of any other type escaping the `try`
block propagates completely unmodified. -/
theorem set_merged_etfs_error_handling (fetch : String → Except PyErr (List RawRow))
    (s : ETFHelpers) :
    (∀ msg, fetch s.etf_1 = Except.error (PyErr.valueError msg) →
      set_merged_etfs fetch s = Except.error (PyErr.valueError etfNotFoundMsg)) ∧
    (∀ df msg, fetch s.etf_1 = Except.ok df →
      fetch s.etf_2 = Except.error (PyErr.valueError msg) →
      set_merged_etfs fetch s = Except.error (PyErr.valueError etfNotFoundMsg)) ∧
    (∀ e, (fetch s.etf_1 = Except.error e ∨
        (∃ df, fetch s.etf_1 = Except.ok df ∧ fetch s.etf_2 = Except.error e)) →
      (∀ msg, e ≠ PyErr.valueError msg) →
      set_merged_etfs fetch s = Except.error e) := by
  refine ⟨?_, ?_, ?_⟩
  · intro msg h1
    unfold set_merged_etfs
    rw [h1]
  · intro df msg h1 h2
    unfold set_merged_etfs
    rw [h1, h2]
  · intro e hsrc hne
    unfold set_merged_etfs
    rcases hsrc with h1 | ⟨df, h1, h2⟩
    · rw [h1]
      cases e with
      | valueError msg => exact absurd rfl (hne msg)
      | assertionError msg => rfl
      | typeError msg => rfl
      | otherError msg => rfl
    · rw [h1, h2]
      cases e with
      | valueError msg => exact absurd rfl (hne msg)
      | assertionError msg => rfl
      | typeError msg => rfl
      | otherError msg => rfl

/-- Witness for C4: a provider that rejects ETFA with `ValueError` makes
`set_merged_etfs` fail with the fixed user-facing message. -/
theorem set_merged_etfs_error_handling_witness :
    fetchNF sNF.etf_1 = Except.error (PyErr.valueError "No ETF found") ∧
    set_merged_etfs fetchNF sNF = Except.error (PyErr.valueError etfNotFoundMsg) := by
  have h1 : fetchNF sNF.etf_1 = Except.error (PyErr.valueError "No ETF found") := rfl
  exact ⟨h1, (set_merged_etfs_error_handling fetchNF sNF).1 "No ETF found" h1⟩

/-- Claim C6: `clean_holdings` turns a percent cell `numStr ++ "%"` (where
`numStr` itself has no trailing `'%'` and parses as a decimal) into the
parsed value divided by 100. -/
theorem clean_holdings_percent_string (sym nm numStr : String) (sh q : ℚ)
    (h1 : parseFloat? numStr = some q)
    (h2 : numStr.data.reverse.dropWhile (fun c => decide (c = '%')) = numStr.data.reverse) :
    clean_holdings [⟨sym, nm, numStr ++ "%", sh⟩] = Except.ok [⟨sym, nm, q / 100, sh⟩] := by
  have hstrip : rstripPercent (numStr ++ "%") = numStr := by
    unfold rstripPercent
    rw [String.data_append, List.reverse_append]
    show String.mk (List.dropWhile _ ('%' :: numStr.data.reverse)).reverse = numStr
    rw [List.dropWhile_cons, if_pos (by decide), h2, List.reverse_reverse]
  have hrow : clean_row ⟨sym, nm, numStr ++ "%", sh⟩ = Except.ok ⟨sym, nm, q / 100, sh⟩ := by
    unfold clean_row
    rw [hstrip, h1]
  show clean_holdings (⟨sym, nm, numStr ++ "%", sh⟩ :: []) = _
  unfold clean_holdings
  rw [hrow]
  rfl

/-- Witness for C6: the percent cell `"7.50%"` normalises to 0.075. -/
theorem clean_holdings_percent_string_witness :
    parseFloat? "7.50" = some (7.5 : ℚ) ∧
    clean_holdings [⟨"AAA", "Apple Co", "7.50%", 1000⟩]
      = Except.ok [⟨"AAA", "Apple Co", (0.075 : ℚ), 1000⟩] := by
  have hparts : parseFloatParts? "7.50" = some (false, 7, 50, 2) := by decide
  have h1 : parseFloat? "7.50" = some (7.5 : ℚ) := by
    simp only [parseFloat?, hparts, Option.map_some']
    simp only [ratOfParts]
    norm_num
  refine ⟨h1, ?_⟩
  have h := clean_holdings_percent_string "AAA" "Apple Co" "7.50" 1000 7.5 h1 (by decide)
  rw [show ("7.50%" : String) = "7.50" ++ "%" from rfl, h,
    show (7.5 : ℚ) / 100 = 0.075 from by norm_num]

/-- Claim C7: for an `etf` of the pair with a merged table present,
`get_top_overlapping_holdings` succeeds and returns exactly the first `n`
rows of `get_holdings_overlap`: at most `n` rows, a prefix of the full
table, and the whole table (without padding or error) when fewer than `n`
rows exist. -/
theorem get_top_overlapping_holdings_head (eqJson : List (String × EquityRec))
    (s : ETFHelpers) (etf : String) (n : ℕ) (m : List MergedRow)
    (hpair : etf = s.etf_1 ∨ etf = s.etf_2) (hm : s.merged_etfs = some m) :
    ∃ full, get_holdings_overlap eqJson s etf = Except.ok (full, s) ∧
      get_top_overlapping_holdings eqJson s etf n = Except.ok (full.take n, s) ∧
      (full.take n).length ≤ n ∧
      (∃ rest, full = full.take n ++ rest) ∧
      (full.length ≤ n → full.take n = full) := by
  have hfull : get_holdings_overlap eqJson s etf =
      Except.ok (merge_with_holdings eqJson
        (((m.filter fun r => decide (r.tag = MergeTag.both)).mergeSort
            (fun a b => descKeyLE (percentCol s etf a) (percentCol s etf b))).map
          fun r => OverlapRow.mk r.symbol r.name (percentCol s etf r) (sharesCol s etf r)),
        s) := by
    unfold get_holdings_overlap
    rw [if_pos hpair, hm]
  refine ⟨_, hfull, ?_, List.length_take_le n _, ⟨_, (List.take_append_drop n _).symm⟩,
    fun hlen => List.take_of_length_le hlen⟩
  unfold get_top_overlapping_holdings
  rw [if_pos hpair, hfull]

/-- Witness for C7 on the spec fixture with `n = 5` and an empty equity
reference set. -/
theorem get_top_overlapping_holdings_head_witness :
    ("ETFX" = sXY.etf_1 ∨ "ETFX" = sXY.etf_2) ∧
    sXY.merged_etfs = some (outerMerge dfX dfY) ∧
    ∃ full, get_holdings_overlap [] sXY "ETFX" = Except.ok (full, sXY) ∧
      get_top_overlapping_holdings [] sXY "ETFX" 5 = Except.ok (full.take 5, sXY) ∧
      (full.take 5).length ≤ 5 ∧ (full.length ≤ 5 → full.take 5 = full) := by
  refine ⟨Or.inl rfl, rfl, ?_⟩
  obtain ⟨full, hf1, hf2, hf3, _, hf5⟩ :=
    get_top_overlapping_holdings_head [] sXY "ETFX" 5 (outerMerge dfX dfY) (Or.inl rfl) rfl
  exact ⟨full, hf1, hf2, hf3, hf5⟩

/-- Claim C8: the enrichment step of `get_holdings_overlap` is a left join
on `symbol`: a row whose symbol is absent from the equity reference table
is kept, with null sector/industry/country; no row is dropped; and the
output of `get_holdings_overlap` is exactly `merge_with_holdings` applied
to the selected overlap rows. -/
theorem merge_with_holdings_left_join (eqJson : List (String × EquityRec))
    (holdings_df : List OverlapRow) (h : OverlapRow) (hmem : h ∈ holdings_df) :
    ((∀ e ∈ get_equity_data eqJson, e.symbol ≠ h.symbol) →
      (⟨h.symbol, h.name, h.percent, h.shares, none, none, none⟩ : EnrichedRow)
        ∈ merge_with_holdings eqJson holdings_df) ∧
    (∃ er ∈ merge_with_holdings eqJson holdings_df,
      er.symbol = h.symbol ∧ er.name = h.name ∧ er.percent = h.percent ∧ er.shares = h.shares) ∧
    (∀ s etf out s2, get_holdings_overlap eqJson s etf = Except.ok (out, s2) →
      ∃ sel, out = merge_with_holdings eqJson sel) := by
  refine ⟨?_, ?_, ?_⟩
  · intro habs
    have hnil : (get_equity_data eqJson).filter (fun e => decide (e.symbol = h.symbol)) = [] := by
      apply List.filter_eq_nil_iff.mpr
      intro e he
      simpa using fun hc => habs e he hc
    unfold merge_with_holdings
    refine List.mem_flatMap.mpr ⟨h, hmem, ?_⟩
    simp [hnil]
  · by_cases hms : ((get_equity_data eqJson).filter fun e => decide (e.symbol = h.symbol)).isEmpty = true
    · refine ⟨⟨h.symbol, h.name, h.percent, h.shares, none, none, none⟩, ?_, rfl, rfl, rfl, rfl⟩
      unfold merge_with_holdings
      refine List.mem_flatMap.mpr ⟨h, hmem, ?_⟩
      simp [List.isEmpty_iff.mp hms]
    · obtain ⟨e, he⟩ : ∃ e, e ∈ (get_equity_data eqJson).filter
          fun e => decide (e.symbol = h.symbol) := by
        rcases hcase : (get_equity_data eqJson).filter
            (fun e => decide (e.symbol = h.symbol)) with _ | ⟨a, t⟩
        · rw [List.isEmpty_iff] at hms
          exact absurd hcase hms
        · exact ⟨a, hcase ▸ List.mem_cons_self a t⟩
      refine ⟨⟨h.symbol, h.name, h.percent, h.shares, e.sector, e.industry, e.country⟩, ?_,
        rfl, rfl, rfl, rfl⟩
      unfold merge_with_holdings
      refine List.mem_flatMap.mpr ⟨h, hmem, ?_⟩
      rw [if_neg hms]
      exact List.mem_map.mpr ⟨e, he, rfl⟩
  · intro s etf out s2 hok
    unfold get_holdings_overlap at hok
    by_cases hp : etf = s.etf_1 ∨ etf = s.etf_2
    · rw [if_pos hp] at hok
      rcases hmm : s.merged_etfs with _ | m
      · rw [hmm] at hok
        exact absurd hok (by simp)
      · rw [hmm] at hok
        have hpr := Except.ok.inj hok
        exact ⟨_, (congrArg Prod.fst hpr).symm⟩
    · rw [if_neg hp] at hok
      exact absurd hok (by simp)

/-- Witness for C8: the symbol QQQ is absent from an equity reference table
containing only ZZZ, yet its overlap row survives enrichment with null
metadata columns. -/
theorem merge_with_holdings_left_join_witness :
    (⟨"QQQ", "Nq", some 0.3, some 10⟩ : OverlapRow)
        ∈ [(⟨"QQQ", "Nq", some 0.3, some 10⟩ : OverlapRow)] ∧
    (⟨"QQQ", "Nq", some 0.3, some 10, none, none, none⟩ : EnrichedRow)
      ∈ merge_with_holdings [("ZZZ", ⟨some "Tech", none, none⟩)]
          [⟨"QQQ", "Nq", some 0.3, some 10⟩] := by
  refine ⟨List.mem_singleton.mpr rfl, ?_⟩
  refine (merge_with_holdings_left_join [("ZZZ", ⟨some "Tech", none, none⟩)]
    [⟨"QQQ", "Nq", some 0.3, some 10⟩] ⟨"QQQ", "Nq", some 0.3, some 10⟩
    (List.mem_singleton.mpr rfl)).1 ?_
  intro e he
  have heq : get_equity_data [("ZZZ", ⟨some "Tech", none, none⟩)]
      = [⟨"ZZZ", some "Tech", none, none⟩] := rfl
  rw [heq] at he
  rw [List.mem_singleton.mp he]
  exact (by decide : ("ZZZ" : String) ≠ "QQQ")

/-- Claim C9: for an `etf` outside the configured pair, each of the three
getters fails with the `assert` error before touching the merged table: the
result is the assertion failure for EVERY instance state, including one
whose `merged_etfs` is still `None`. -/
theorem invalid_etf_assertion (eqJson : List (String × EquityRec)) (s : ETFHelpers)
    (etf : String) (n : ℕ) (hbad : ¬ (etf = s.etf_1 ∨ etf = s.etf_2)) :
    get_percent_overlap s etf = Except.error (PyErr.assertionError assertMsg) ∧
    get_holdings_overlap eqJson s etf = Except.error (PyErr.assertionError assertMsg) ∧
    get_top_overlapping_holdings eqJson s etf n = Except.error (PyErr.assertionError assertMsg) := by
  refine ⟨?_, ?_, ?_⟩
  · unfold get_percent_overlap
    rw [if_neg hbad]
  · unfold get_holdings_overlap
    rw [if_neg hbad]
  · unfold get_top_overlapping_holdings
    rw [if_neg hbad]

/-- Witness for C9: ETFC is not in the pair (ETFA, ETFB); all three getters
raise the assertion error even though `merged_etfs` is still `None`. -/
theorem invalid_etf_assertion_witness :
    sNF.merged_etfs = none ∧ ¬ ("ETFC" = sNF.etf_1 ∨ "ETFC" = sNF.etf_2) ∧
    get_percent_overlap sNF "ETFC" = Except.error (PyErr.assertionError assertMsg) ∧
    get_holdings_overlap [] sNF "ETFC" = Except.error (PyErr.assertionError assertMsg) ∧
    get_top_overlapping_holdings [] sNF "ETFC" 3 = Except.error (PyErr.assertionError assertMsg) := by
  have h := invalid_etf_assertion [] sNF "ETFC" 3 (by decide)
  exact ⟨rfl, by decide, h.1, h.2.1, h.2.2⟩

theorem get_holdings_overlap_map_snd (eqJson : List (String × EquityRec))
    (s : ETFHelpers) (etf : String) :
    (get_holdings_overlap eqJson s etf).map Prod.snd
      = (get_holdings_overlap eqJson s etf).map fun _ => s := by
  unfold get_holdings_overlap
  by_cases hp : etf = s.etf_1 ∨ etf = s.etf_2
  · rw [if_pos hp]
    rcases hmm : s.merged_etfs with _ | m <;> rfl
  · rw [if_neg hp]
    rfl

/-- Claim C10: the three getters are queries: the instance state they hand
back (all five fields `etf_1`, `etf_2`, `merged_etfs`, `greater`, `lesser`)
is the state they were called on, whether they succeed or raise, for every
argument. -/
theorem getters_preserve_state (eqJson : List (String × EquityRec)) (s : ETFHelpers)
    (etf : String) (n : ℕ) :
    (get_percent_overlap s etf).map Prod.snd
      = (get_percent_overlap s etf).map (fun _ => s) ∧
    (get_holdings_overlap eqJson s etf).map Prod.snd
      = (get_holdings_overlap eqJson s etf).map (fun _ => s) ∧
    (get_top_overlapping_holdings eqJson s etf n).map Prod.snd
      = (get_top_overlapping_holdings eqJson s etf n).map (fun _ => s) := by
  refine ⟨?_, get_holdings_overlap_map_snd eqJson s etf, ?_⟩
  · unfold get_percent_overlap
    by_cases hp : etf = s.etf_1 ∨ etf = s.etf_2
    · rw [if_pos hp]
      rcases hmm : s.merged_etfs with _ | m <;> rfl
    · rw [if_neg hp]
      rfl
  · unfold get_top_overlapping_holdings
    by_cases hp : etf = s.etf_1 ∨ etf = s.etf_2
    · rw [if_pos hp]
      rcases hres : get_holdings_overlap eqJson s etf with e | p
      · rfl
      · have hsnd := get_holdings_overlap_map_snd eqJson s etf
        rw [hres] at hsnd
        obtain ⟨l, s2⟩ := p
        have hs2 : s2 = s := by simpa [Except.map] using hsnd
        rw [hs2]
        rfl
    · rw [if_neg hp]
      rfl
